import Mathlib

set_option autoImplicit false

/-!
Shallow embedding of the armadillo-game repository (models/armadillo.py,
models/breeding.py, models/habitat.py, services/state.py,
services/economy.py, services/persistence.py).

Conventions of the embedding:
* Python `int` becomes `Int`, Python `float` (timestamps) becomes `ℚ`.
* Python dictionaries become association lists (`List (String × α)`).
* A method that mutates `self` and may raise becomes a function returning
  the new object paired with a success flag (or an `Except`): mutations are
  applied in source order, and an exception keeps the mutations already
  applied, exactly as a raised exception leaves a Python object.
* Randomness (`random.choice`, `random.random`, `random.randrange`) and the
  wall clock are passed in explicitly as oracle values.
-/

/-- `services/economy.py`: `clamp(n, lo, hi) = max(lo, min(n, hi))`. -/
def clamp (n lo hi : Int) : Int := max lo (min n hi)

/-- `Economy.DEFAULT_INCUBATION_S` from `services/economy.py`. -/
def Economy.DEFAULT_INCUBATION_S : Int := 30

/-- `Economy.REWARD_CARE` from `services/economy.py`. -/
def Economy.REWARD_CARE : Int := 3

/-- Python `dict.get(k, default)` on an association list (first binding wins). -/
def dictGetD (d : List (String × String)) (k : String) (default : String) : String :=
  match d.find? (fun p => p.1 == k) with
  | some p => p.2
  | none => default

/-- Python `dict.get(k, 0)` for an int-valued dict. -/
def dictGetI (d : List (String × Int)) (k : String) : Int :=
  match d.find? (fun p => p.1 == k) with
  | some p => p.2
  | none => 0

/-- Python `d[k] = v` on an association list: update the existing binding in
place, else append. -/
def dictSetI (d : List (String × Int)) (k : String) (v : Int) : List (String × Int) :=
  match d with
  | [] => [(k, v)]
  | p :: rest => if p.1 == k then (k, v) :: rest else p :: dictSetI rest k v

/-- Order-preserving de-duplication (the `seen` loop of
`Habitat.__post_init__` and of `GameState.from_dict`), with the already-seen
elements accumulated in `seen`. -/
def dedupGo (seen : List String) : List String → List String
  | [] => []
  | x :: xs => if x ∈ seen then dedupGo seen xs else x :: dedupGo (x :: seen) xs

/-- Order-preserving de-duplication starting from nothing seen. -/
def dedupKeepFirst (l : List String) : List String := dedupGo [] l

/-- A Python list comprehension whose element expression may raise: elements
are produced left to right and the first exception aborts the whole
comprehension. -/
def mapExcept {α β : Type} (f : α → Except String β) : List α → Except String (List β)
  | [] => .ok []
  | x :: xs =>
    match f x with
    | .error e => .error e
    | .ok y =>
      match mapExcept f xs with
      | .error e => .error e
      | .ok ys => .ok (y :: ys)

/-- Python `set` of strings, modelled as a duplicate-free list; `s.add(x)`. -/
def setAdd (s : List String) (x : String) : List String :=
  if x ∈ s then s else s ++ [x]

/-- `models/armadillo.py`: dataclass `Armadillo` (id, name, sex, age_days,
hunger, happiness, genes, color, and the two derived life-stage flags). -/
structure Armadillo where
  id : String
  name : String
  sex : String
  age_days : Int
  hunger : Int
  happiness : Int
  genes : List (String × String)
  color : String
  is_baby : Bool
  is_adult : Bool
  deriving DecidableEq, Repr

/-- `Armadillo.__post_init__` as a smart constructor: validates sex and age,
clamps hunger and happiness to [0,100], derives the life-stage flags.
A raised `ValueError` becomes `Except.error`. -/
def Armadillo.make (id name sex : String) (age_days hunger happiness : Int)
    (genes : List (String × String)) (color : String) : Except String Armadillo :=
  if sex ≠ "M" ∧ sex ≠ "F" then .error "sex must be M or F."
  else if age_days < 0 then .error "age_days must be a non-negative integer."
  else .ok
    { id := id, name := name, sex := sex, age_days := age_days
      hunger := clamp hunger 0 100, happiness := clamp happiness 0 100
      genes := genes, color := color
      is_adult := decide (14 ≤ age_days), is_baby := !decide (14 ≤ age_days) }

/-- A serialized Armadillo record (`Dict[str, object]`): each key either
present (with the value of the type `to_dict` writes) or absent. -/
structure ArmadilloRecord where
  id : Option String := none
  name : Option String := none
  sex : Option String := none
  age_days : Option Int := none
  hunger : Option Int := none
  happiness : Option Int := none
  genes : Option (List (String × String)) := none
  color : Option String := none
  is_baby : Option Bool := none
  is_adult : Option Bool := none
  deriving DecidableEq, Repr

/-- `Armadillo.to_dict`: serialize every field to a flat record. -/
def Armadillo.to_dict (a : Armadillo) : ArmadilloRecord :=
  { id := some a.id, name := some a.name, sex := some a.sex
    age_days := some a.age_days, hunger := some a.hunger
    happiness := some a.happiness, genes := some a.genes, color := some a.color
    is_baby := some a.is_baby, is_adult := some a.is_adult }

/-- `Armadillo.from_dict`: reject a record missing any of the eight required
keys, then rebuild through the validating constructor (life-stage flags are
recomputed from `age_days`). -/
def Armadillo.from_dict (d : ArmadilloRecord) : Except String Armadillo :=
  match d.id, d.name, d.sex, d.age_days, d.hunger, d.happiness, d.genes, d.color with
  | some i, some n, some s, some ad, some hu, some ha, some g, some c =>
      Armadillo.make i n s ad hu ha g c
  | _, _, _, _, _, _, _, _ => .error "Missing fields"

/-- `ALLOWED_ALLELES` from `models/breeding.py`. -/
def ALLOWED_ALLELES : List Char := ['A', 'a', 'B']

/-- `_validate_gene_string` as a boolean test: 2 characters, all of them
allowed alleles. -/
def validGeneString (g : List Char) : Bool :=
  g.length == 2 && g.all (fun ch => ch ∈ ALLOWED_ALLELES)

/-- `_phenotype_from_genes`: "Blue" if the genotype contains 'B', else
"Brown" if it contains 'A', else "Albino". -/
def phenotype_from_genes (g : List Char) : String :=
  if 'B' ∈ g then "Blue" else if 'A' ∈ g then "Brown" else "Albino"

/-- The random draws consumed by one call of `combine_genes`: the allele
index chosen from each parent, whether `random.random() < mutation_chance`,
and the `random.randrange(2)` mutation position. -/
structure GeneDraw where
  alleleM : Fin 2
  alleleF : Fin 2
  mutateRoll : Bool
  mutIdx : Fin 2
  deriving DecidableEq, Repr

/-- `combine_genes(color_m, color_f, mutation_chance)`: validate both parent
genotypes and the mutation chance, pick one allele from each parent, possibly
mutate one position to 'B', and return the child genotype with its
phenotype. -/
def combine_genes (color_m color_f : List Char) (mutation_chance : ℚ)
    (r : GeneDraw) : Except String (List Char × String) :=
  if !validGeneString color_m then .error "Gene string invalid."
  else if !validGeneString color_f then .error "Gene string invalid."
  else if ¬(0 ≤ mutation_chance ∧ mutation_chance ≤ 1) then
    .error "mutation_chance must be between 0 and 1 inclusive."
  else
    let allele_m := color_m.getD r.alleleM.val 'A'
    let allele_f := color_f.getD r.alleleF.val 'A'
    let child := [allele_m, allele_f]
    let child :=
      if r.mutateRoll then child.set r.mutIdx.val 'B' else child
    .ok (child, phenotype_from_genes child)

/-- `_NAME_POOL` from `models/breeding.py`. -/
def NAME_POOL : List String :=
  ["Pebble", "Sprocket", "Nugget", "Mochi", "Tango",
   "Pixel", "Bean", "Ziggy", "Clover", "Blu", "Amber"]

/-- `models/breeding.py`: dataclass `BreedingJob`. Timestamps are rationals
(Python floats), durations integers. `result` holds the newborn record once
hatched. -/
structure BreedingJob where
  id : String
  parent_m_id : String
  parent_f_id : String
  start_ts : ℚ
  duration_s : Int
  status : String
  result : Option ArmadilloRecord
  deriving DecidableEq, Repr

/-- `BreedingJob.__post_init__` as a smart constructor: duration must be at
least 1 and status one of "incubating"/"done". -/
def BreedingJob.make (id pm pf : String) (start_ts : ℚ) (duration_s : Int)
    (status : String) (result : Option ArmadilloRecord) : Except String BreedingJob :=
  if duration_s < 1 then .error "duration_s must be an integer >= 1."
  else if status ≠ "incubating" ∧ status ≠ "done" then
    .error "status must be incubating or done."
  else .ok { id := id, parent_m_id := pm, parent_f_id := pf, start_ts := start_ts
             duration_s := duration_s, status := status, result := result }

/-- A serialized BreedingJob record; `result` is read with `.get` so it is a
plain optional value, the other keys may be absent. -/
structure JobRecord where
  id : Option String := none
  parent_m_id : Option String := none
  parent_f_id : Option String := none
  start_ts : Option ℚ := none
  duration_s : Option Int := none
  status : Option String := none
  result : Option ArmadilloRecord := none
  deriving DecidableEq, Repr

/-- `BreedingJob.to_dict`. -/
def BreedingJob.to_dict (j : BreedingJob) : JobRecord :=
  { id := some j.id, parent_m_id := some j.parent_m_id
    parent_f_id := some j.parent_f_id, start_ts := some j.start_ts
    duration_s := some j.duration_s, status := some j.status, result := j.result }

/-- `BreedingJob.from_dict`: reject a record missing a required key, then
rebuild through the validating constructor. -/
def BreedingJob.from_dict (d : JobRecord) : Except String BreedingJob :=
  match d.id, d.parent_m_id, d.parent_f_id, d.start_ts, d.duration_s, d.status with
  | some i, some pm, some pf, some st, some du, some s =>
      BreedingJob.make i pm pf st du s d.result
  | _, _, _, _, _, _ => .error "Missing fields"

/-- `BreedingJob.remaining(now)`: `duration_s - (now - start_ts)`, truncated
to an integer and clamped at 0 (for a positive raw value Python's `int()`
is the floor). -/
def BreedingJob.remaining (j : BreedingJob) (now : ℚ) : Int :=
  let raw : ℚ := (j.duration_s : ℚ) - (now - j.start_ts)
  if raw ≤ 0 then 0 else ⌊raw⌋

/-- `BreedingJob.is_done(now)`: status not already "done" and the countdown
reached 0. -/
def BreedingJob.is_done (j : BreedingJob) (now : ℚ) : Bool :=
  !(j.status == "done") && (j.remaining now == 0)

/-- The random draws and wall-clock reading consumed by one `hatch_result`
call: the gene draws, the newborn sex pick, the newborn name pick, and the
millisecond-clock string used as the newborn id. -/
structure HatchDraw where
  gene : GeneDraw
  sexIsM : Bool
  nameIdx : Fin 11
  babyId : String
  deriving DecidableEq, Repr

/-- `make_baby_name()`: pick from the fixed name pool. -/
def make_baby_name (idx : Fin 11) : String := NAME_POOL.getD idx.val "Pebble"

/-- `hatch_result(dad, mom, mutation_chance)`: require dad male and mom
female, combine the parents' color genes (defaulting to "Aa"), and build the
newborn record with age 0, hunger 60, happiness 60. Exceptions from gene
validation propagate. -/
def hatch_result (dad mom : Armadillo) (mutation_chance : ℚ) (r : HatchDraw) :
    Except String ArmadilloRecord :=
  if dad.sex ≠ "M" ∨ mom.sex ≠ "F" then
    .error "Parent sexes must be dad=M and mom=F."
  else
    match combine_genes (dictGetD dad.genes "color" "Aa").toList
        (dictGetD mom.genes "color" "Aa").toList mutation_chance r.gene with
    | .error e => .error e
    | .ok (child_genes, phenotype) =>
      match Armadillo.make r.babyId (make_baby_name r.nameIdx)
          (if r.sexIsM then "M" else "F") 0 60 60
          [("color", String.mk child_genes)] phenotype with
      | .error e => .error e
      | .ok baby => .ok baby.to_dict

/-- `models/habitat.py`: dataclass `Habitat`. -/
structure Habitat where
  id : String
  name : String
  level : Int
  capacity : Int
  occupants : List String
  hatch_boost_pct : Int
  deriving DecidableEq, Repr

/-- `Habitat.__post_init__` as a smart constructor: level ≥ 1, capacity ≥ 0,
hatch_boost_pct in [0,100], occupants de-duplicated in order, and the
de-duplicated occupants must fit the capacity. -/
def Habitat.make (id name : String) (level capacity : Int)
    (occupants : List String) (hatch_boost_pct : Int) : Except String Habitat :=
  if level < 1 then .error "level must be >= 1"
  else if capacity < 0 then .error "capacity must be >= 0"
  else if ¬(0 ≤ hatch_boost_pct ∧ hatch_boost_pct ≤ 100) then
    .error "hatch_boost_pct must be in [0, 100]"
  else
    let unique := dedupKeepFirst occupants
    if (unique.length : Int) > capacity then .error "occupants exceed capacity"
    else .ok { id := id, name := name, level := level, capacity := capacity
               occupants := unique, hatch_boost_pct := hatch_boost_pct }

/-- A serialized Habitat record: id, name, level, capacity required;
occupants and hatch_boost_pct optional with defaults. -/
structure HabitatRecord where
  id : Option String := none
  name : Option String := none
  level : Option Int := none
  capacity : Option Int := none
  occupants : List String := []
  hatch_boost_pct : Int := 0
  deriving DecidableEq, Repr

/-- `Habitat.to_dict`. -/
def Habitat.to_dict (h : Habitat) : HabitatRecord :=
  { id := some h.id, name := some h.name, level := some h.level
    capacity := some h.capacity, occupants := h.occupants
    hatch_boost_pct := h.hatch_boost_pct }

/-- `Habitat.from_dict`: raise on a missing required field, then rebuild
through the validating constructor. -/
def Habitat.from_dict (d : HabitatRecord) : Except String Habitat :=
  match d.id, d.name, d.level, d.capacity with
  | some i, some n, some l, some c =>
      Habitat.make i n l c d.occupants d.hatch_boost_pct
  | _, _, _, _ => .error "Missing required field"

/-- `Habitat.has_space`: occupant count strictly below capacity. -/
def Habitat.has_space (h : Habitat) : Bool :=
  decide ((h.occupants.length : Int) < h.capacity)

/-- `Habitat.add`: append the id if there is space and it is not already
present; returns the (possibly updated) habitat and the success flag. -/
def Habitat.add (h : Habitat) (armadillo_id : String) : Habitat × Bool :=
  if !h.has_space then (h, false)
  else if armadillo_id ∈ h.occupants then (h, false)
  else ({ h with occupants := h.occupants ++ [armadillo_id] }, true)

/-- `Habitat.remove`: drop the first occurrence of the id if present
(`list.remove`); absent ids are ignored. -/
def Habitat.remove (h : Habitat) (armadillo_id : String) : Habitat :=
  { h with occupants := h.occupants.erase armadillo_id }

/-- `Habitat.upgrade(capacity_delta, level_delta)`: all three checks happen
before any field is assigned, so a raised `ValueError` (here: `false`)
leaves the habitat unchanged. -/
def Habitat.upgrade (h : Habitat) (capacity_delta level_delta : Int) : Habitat × Bool :=
  let new_level := h.level + level_delta
  let new_capacity := h.capacity + capacity_delta
  if new_level < 1 then (h, false)
  else if new_capacity < 0 then (h, false)
  else if new_capacity < (h.occupants.length : Int) then (h, false)
  else ({ h with level := new_level, capacity := new_capacity }, true)

/-- The `"now_ts"` entry of the untyped `meta` dict: absent, present but not
a Python float, or a float value. -/
inductive MetaNowTs
  | absent
  | nonFloat
  | float (q : ℚ)
  deriving DecidableEq, Repr

/-- Result of a Python call that either raises or returns. -/
inductive PyResult (α : Type)
  | raised (msg : String)
  | ok (v : α)
  deriving DecidableEq, Repr

/-- `services/state.py`: dataclass `GameState` (the observer list and the
singleton plumbing carry no game data and are omitted; of the untyped `meta`
dict only the `"now_ts"` entry is ever read, so `meta` is modelled as that
entry). -/
structure GameState where
  coins : Int := 0
  inventory : List (String × Int) := []
  armadillos : List Armadillo := []
  habitats : List Habitat := []
  breeding_queue : List BreedingJob := []
  dex_colors : List String := []
  selected_id : Option String := none
  meta : MetaNowTs := .absent
  deriving DecidableEq, Repr

/-- `GameState.get_by_id`: linear search for the first armadillo with the
given id. -/
def GameState.get_by_id (s : GameState) (did : Option String) : Option Armadillo :=
  match did with
  | none => none
  | some i => s.armadillos.find? (fun a => a.id == i)

/-- `GameState.get_selected` (a non-`None` selected id is looked up; the
empty string, falsy in Python, does not occur as an id in this model). -/
def GameState.get_selected (s : GameState) : Option Armadillo :=
  match s.selected_id with
  | none => none
  | some i => s.get_by_id (some i)

/-- `GameState.buy(item, cost)`: a negative cost raises `ValueError`;
insufficient coins returns `False` without mutation; otherwise the cost is
deducted and the item's inventory count incremented. -/
def GameState.buy (s : GameState) (item : String) (cost : Int) :
    GameState × PyResult Bool :=
  if cost < 0 then (s, .raised "cost must be >= 0.")
  else if s.coins < cost then (s, .ok false)
  else ({ s with coins := s.coins - cost,
                 inventory := dictSetI s.inventory item (dictGetI s.inventory item + 1) },
        .ok true)

/-- The removal loop of `move_selected_to_habitat`: strip `did` from every
habitat whose occupant list contains it. -/
def removeFromAll (habs : List Habitat) (did : String) : List Habitat :=
  habs.map (fun h =>
    if did ∈ h.occupants
    then { h with occupants := h.occupants.filter (fun x => x != did) }
    else h)

/-- Update the first habitat with the given id (the object `next(...)` found
in Python). -/
def updateFirstHab (habs : List Habitat) (hid : String) (f : Habitat → Habitat) :
    List Habitat :=
  match habs with
  | [] => []
  | h :: rest => if h.id == hid then f h :: rest else h :: updateFirstHab rest hid f

/-- `GameState.move_selected_to_habitat(hid)`: fail when nothing is selected
or the habitat id is unknown; otherwise FIRST remove the selected armadillo
from every habitat, THEN check the target's capacity (failing leaves the
removal in place), and finally append to the target if not present. -/
def GameState.move_selected_to_habitat (s : GameState) (hid : String) :
    GameState × Bool :=
  match s.get_selected, s.habitats.find? (fun h => h.id == hid) with
  | some d, some _ =>
    let habs := removeFromAll s.habitats d.id
    let s' := { s with habitats := habs }
    match habs.find? (fun h => h.id == hid) with
    | some target =>
      if (target.occupants.length : Int) ≥ target.capacity then (s', false)
      else if d.id ∈ target.occupants then (s', true)
      else
        let habs' := updateFirstHab habs hid
          (fun h => { h with occupants := h.occupants ++ [d.id] })
        ({ s' with habitats := habs' }, true)
    | none => (s', false)
  | _, _ => (s, false)

/-- `GameState.start_breeding(dad_id, mom_id, duration_s)`: parents must be
distinct existing adult M/F armadillos; a duration below 1 falls back to
`Economy.DEFAULT_INCUBATION_S`; the new job's `start_ts` is the stored
`meta["now_ts"]` when that is a float, else `0.0`. -/
def GameState.start_breeding (s : GameState) (dad_id mom_id : String)
    (duration_s : Int) : GameState × Option BreedingJob :=
  if dad_id == mom_id then (s, none)
  else
    match s.get_by_id (some dad_id), s.get_by_id (some mom_id) with
    | some dad, some mom =>
      if dad.sex ≠ "M" ∨ mom.sex ≠ "F" then (s, none)
      else if ¬dad.is_adult ∨ ¬mom.is_adult then (s, none)
      else
        let dur := if duration_s ≥ 1 then duration_s else Economy.DEFAULT_INCUBATION_S
        let job : BreedingJob :=
          { id := "b" ++ toString (s.breeding_queue.length + 1)
            parent_m_id := dad_id, parent_f_id := mom_id
            start_ts := match s.meta with | .float q => q | _ => 0
            duration_s := dur, status := "incubating", result := none }
        ({ s with breeding_queue := s.breeding_queue ++ [job] }, some job)
    | _, _ => (s, none)

/-- The newborn placement of `breeding_tick`: find the first habitat holding
the mom and append the baby there if space remains and it is not already
present. -/
def placeBaby (habs : List Habitat) (momId babyId : String) : List Habitat :=
  match habs with
  | [] => []
  | h :: rest =>
    if momId ∈ h.occupants then
      (if (h.occupants.length : Int) < h.capacity ∧ babyId ∉ h.occupants
       then { h with occupants := h.occupants ++ [babyId] } else h) :: rest
    else h :: placeBaby rest momId babyId

/-- The loop of `breeding_tick`, one job at a time. `newborns` and
`remaining` accumulate as in the source; `dropped` records the final value
of each job object removed from the queue (observable through references
held by callers, e.g. the job returned by `start_breeding`); `k` counts the
hatches performed so far and indexes the oracle. An exception raised while
hatching propagates. -/
def tickLoop (now : ℚ) (oracle : Nat → HatchDraw) :
    List BreedingJob → GameState → List Armadillo → List BreedingJob →
    List BreedingJob → Nat → Except String (GameState × List Armadillo × List BreedingJob)
  | [], s, newborns, remaining, dropped, _ =>
      .ok ({ s with breeding_queue := remaining }, newborns, dropped)
  | job :: rest, s, newborns, remaining, dropped, k =>
    let job := if job.start_ts = 0 then { job with start_ts := now } else job
    if job.is_done now then
      match s.get_by_id (some job.parent_m_id), s.get_by_id (some job.parent_f_id) with
      | some dad, some mom =>
        match hatch_result dad mom (5 / 100) (oracle k) with
        | .error e => .error e
        | .ok baby_dict =>
          let job := { job with status := "done", result := some baby_dict }
          match Armadillo.from_dict baby_dict with
          | .error e => .error e
          | .ok baby =>
            let s := { s with
              armadillos := s.armadillos ++ [baby]
              dex_colors := setAdd s.dex_colors baby.color
              habitats := placeBaby s.habitats mom.id baby.id }
            tickLoop now oracle rest s (newborns ++ [baby]) remaining
              (dropped ++ [job]) (k + 1)
      | _, _ => tickLoop now oracle rest s newborns remaining (dropped ++ [job]) k
    else
      tickLoop now oracle rest s newborns (remaining ++ [job]) dropped k

/-- `GameState.breeding_tick(now)`: store `now` in `meta["now_ts"]`, then
process every queued job (initializing a zero `start_ts` to `now`, hatching
due jobs with resolvable parents, silently dropping due jobs with a missing
parent, keeping the rest). Returns the new state, the newborns, and the
final values of the jobs removed from the queue. -/
def GameState.breeding_tick (s : GameState) (now : ℚ) (oracle : Nat → HatchDraw) :
    Except String (GameState × List Armadillo × List BreedingJob) :=
  let s := { s with meta := .float now }
  tickLoop now oracle s.breeding_queue s [] [] [] 0

/-- A parsed save document (`Dict[str, object]` as read by
`GameState.from_dict`; every top-level key is read with `.get` and a
default, so the fields carry their defaults rather than options). -/
structure GameDoc where
  coins : Int := 0
  inventory : List (String × Int) := []
  armadillos : List ArmadilloRecord := []
  habitats : List HabitatRecord := []
  breeding_queue : List JobRecord := []
  dex_colors : List String := []
  selected_id : Option String := none
  meta : MetaNowTs := .absent
  deriving DecidableEq, Repr

/-- `GameState.from_dict(d)`: assign the fields in source order; a
deserialization error aborts the method, keeping the assignments already
made (Python raises mid-method). On full success the habitats are
normalized: unknown occupant ids dropped, duplicates dropped, the list
truncated to `max(0, capacity)`, and an unknown selected id cleared. -/
def GameState.from_dict (s : GameState) (d : GameDoc) : GameState × Bool :=
  let s := { s with coins := d.coins }
  let s := { s with inventory := d.inventory }
  match mapExcept Armadillo.from_dict d.armadillos with
  | .error _ => (s, false)
  | .ok as =>
    let s := { s with armadillos := as }
    match mapExcept Habitat.from_dict d.habitats with
    | .error _ => (s, false)
    | .ok hs =>
      let s := { s with habitats := hs }
      match mapExcept BreedingJob.from_dict d.breeding_queue with
      | .error _ => (s, false)
      | .ok js =>
        let s := { s with breeding_queue := js }
        let s := { s with dex_colors := dedupKeepFirst d.dex_colors }
        let s := { s with selected_id :=
          match d.selected_id with
          | some i => if as.any (fun a => a.id == i) then some i else none
          | none => none }
        let s := { s with meta := d.meta }
        let all_ids := as.map (fun a => a.id)
        let normOcc := fun (h : Habitat) =>
          (dedupKeepFirst (h.occupants.filter (fun aid => all_ids.contains aid))).take
            (max 0 h.capacity).toNat
        let habs' := s.habitats.map (fun h => { h with occupants := normOcc h })
        let s := { s with habitats := habs' }
        (s, true)

/-- What `Persistence.load` finds: no file, a file `json.load` rejects, or a
parsed document. -/
inductive LoadInput
  | absent
  | malformed
  | parsed (d : GameDoc)

/-- `Persistence.load(state)`: a missing file or a JSON parse error returns
`False` with the state untouched; otherwise `state.from_dict(data)` runs and
any exception it raises is swallowed into a `False` return (keeping whatever
`from_dict` already assigned). -/
def Persistence.load (s : GameState) : LoadInput → GameState × Bool
  | .absent => (s, false)
  | .malformed => (s, false)
  | .parsed d => GameState.from_dict s d

/-! ## Concrete fixtures (the starter data of `seed_starters`, trimmed) -/

/-- Starter armadillo "Pebble" (adult male). -/
def aD1 : Armadillo :=
  { id := "d1", name := "Pebble", sex := "M", age_days := 14, hunger := 70,
    happiness := 70, genes := [("color", "Aa")], color := "Brown",
    is_baby := false, is_adult := true }

/-- Starter armadillo "Mochi" (adult female). -/
def aD2 : Armadillo :=
  { id := "d2", name := "Mochi", sex := "F", age_days := 14, hunger := 65,
    happiness := 75, genes := [("color", "aa")], color := "Albino",
    is_baby := false, is_adult := true }

/-- A habitat holding "d1" with room to spare. -/
def hH1 : Habitat :=
  { id := "h1", name := "Grassland", level := 1, capacity := 2,
    occupants := ["d1"], hatch_boost_pct := 0 }

/-- A habitat at capacity: one occupant, capacity one. -/
def hH2 : Habitat :=
  { id := "h2", name := "Desert", level := 1, capacity := 1,
    occupants := ["d2"], hatch_boost_pct := 0 }

/-- A small fully populated game state: 100 coins, two armadillos, "d1"
selected and living in "h1", "h2" full. -/
def sBase : GameState :=
  { coins := 100, inventory := [("food", 3), ("toy", 1)],
    armadillos := [aD1, aD2], habitats := [hH1, hH2],
    breeding_queue := [], dex_colors := ["Brown", "Albino"],
    selected_id := some "d1", meta := .absent }

/-- A constant oracle: never mutate, dad allele 0, mom allele 0. -/
def oracleK : Nat → HatchDraw := fun _ =>
  { gene := { alleleM := 0, alleleF := 0, mutateRoll := false, mutIdx := 0 },
    sexIsM := true, nameIdx := 0, babyId := "t1" }

/-! ## Helper lemmas -/

theorem is_done_fresh_start (j : BreedingJob) (now : ℚ) (hdur : 1 ≤ j.duration_s) :
    BreedingJob.is_done { j with start_ts := now } now = false := by
  have hrem : BreedingJob.remaining { j with start_ts := now } now = j.duration_s := by
    simp only [BreedingJob.remaining, sub_self, sub_zero]
    rw [if_neg (by exact_mod_cast by omega), Int.floor_intCast]
  simp only [BreedingJob.is_done, hrem]
  have : (j.duration_s == 0) = false := by
    simp only [beq_eq_false_iff_ne, ne_eq]
    omega
  simp [this]

theorem dedupGo_nodup_notin (l : List String) :
    ∀ seen, (dedupGo seen l).Nodup ∧ ∀ x ∈ dedupGo seen l, x ∉ seen := by
  induction l with
  | nil => intro seen; simp [dedupGo]
  | cons x xs ih =>
    intro seen
    by_cases hx : x ∈ seen
    · simpa [dedupGo, hx] using ih seen
    · refine ⟨?_, ?_⟩
      · simp only [dedupGo, if_neg hx, List.nodup_cons]
        refine ⟨fun hmem => ?_, (ih (x :: seen)).1⟩
        exact (ih (x :: seen)).2 x hmem (by simp)
      · intro y hy
        simp only [dedupGo, if_neg hx, List.mem_cons] at hy
        rcases hy with rfl | hy
        · exact hx
        · intro hys
          exact (ih (x :: seen)).2 y hy (by simp [hys])

theorem dedupKeepFirst_nodup (l : List String) : (dedupKeepFirst l).Nodup :=
  (dedupGo_nodup_notin l []).1

theorem dedupGo_subset (l : List String) :
    ∀ seen, ∀ x ∈ dedupGo seen l, x ∈ l := by
  induction l with
  | nil => intro seen x hx; simp [dedupGo] at hx
  | cons a as ih =>
    intro seen x hx
    by_cases ha : a ∈ seen
    · simp only [dedupGo, if_pos ha] at hx
      exact List.mem_cons_of_mem _ (ih seen x hx)
    · simp only [dedupGo, if_neg ha, List.mem_cons] at hx
      rcases hx with rfl | hx
      · exact List.mem_cons_self _ _
      · exact List.mem_cons_of_mem _ (ih (a :: seen) x hx)

theorem dedupKeepFirst_subset (l : List String) :
    ∀ x ∈ dedupKeepFirst l, x ∈ l :=
  dedupGo_subset l []

theorem mapExcept_ok_mem {α β : Type} {f : α → Except String β} {l : List α}
    {ys : List β}
    (h : mapExcept f l = .ok ys) : ∀ y ∈ ys, ∃ x ∈ l, f x = .ok y := by
  induction l generalizing ys with
  | nil =>
    simp only [mapExcept] at h
    cases h; simp
  | cons a as ih =>
    simp only [mapExcept] at h
    cases hfa : f a with
    | error e => rw [hfa] at h; cases h
    | ok y0 =>
      rw [hfa] at h
      cases hrest : mapExcept f as with
      | error e => rw [hrest] at h; cases h
      | ok ys0 =>
        rw [hrest] at h
        cases h
        intro y hy
        rcases List.mem_cons.mp hy with rfl | hy'
        · exact ⟨a, by simp, hfa⟩
        · rcases ih hrest y hy' with ⟨x, hxmem, hfx⟩
          exact ⟨x, List.mem_cons_of_mem _ hxmem, hfx⟩

theorem Habitat.make_ok_fields {i n : String} {lv c : Int} {occ : List String}
    {hb : Int} {h : Habitat} (hmk : Habitat.make i n lv c occ hb = .ok h) :
    1 ≤ h.level ∧ 0 ≤ h.capacity ∧ h.occupants.Nodup ∧
      (h.occupants.length : Int) ≤ h.capacity := by
  unfold Habitat.make at hmk
  split at hmk
  · cases hmk
  · split at hmk
    · cases hmk
    · split at hmk
      · cases hmk
      · simp only at hmk
        split at hmk
        · cases hmk
        · cases hmk
          dsimp only
          exact ⟨by omega, by omega, dedupKeepFirst_nodup occ, by omega⟩

theorem Habitat.from_dict_ok_fields {r : HabitatRecord} {h : Habitat}
    (hfd : Habitat.from_dict r = .ok h) :
    1 ≤ h.level ∧ 0 ≤ h.capacity ∧ h.occupants.Nodup ∧
      (h.occupants.length : Int) ≤ h.capacity := by
  unfold Habitat.from_dict at hfd
  split at hfd
  · exact Habitat.make_ok_fields hfd
  · cases hfd

/-! ## C6 -/

/-- One mutating call on a `Habitat`: `add`, `remove` or `upgrade`. -/
inductive HabOp
  | add (aid : String)
  | remove (aid : String)
  | upgrade (capacity_delta level_delta : Int)
  deriving DecidableEq, Repr

/-- Apply one call (return values discarded, as a caller ignoring them). -/
def Habitat.applyOp (h : Habitat) : HabOp → Habitat
  | .add aid => (h.add aid).1
  | .remove aid => h.remove aid
  | .upgrade cd ld => (h.upgrade cd ld).1

/-- Apply a finite sequence of calls left to right. -/
def Habitat.applyOps (h : Habitat) (ops : List HabOp) : Habitat :=
  ops.foldl Habitat.applyOp h

theorem Habitat.applyOp_inv (h : Habitat) (op : HabOp)
    (hn : h.occupants.Nodup) (hc : (h.occupants.length : Int) ≤ h.capacity) :
    (h.applyOp op).occupants.Nodup ∧
      ((h.applyOp op).occupants.length : Int) ≤ (h.applyOp op).capacity := by
  cases op with
  | add aid =>
    simp only [Habitat.applyOp, Habitat.add]
    by_cases hsp : h.has_space = true
    · by_cases hmem : aid ∈ h.occupants
      · simp only [hsp, Bool.not_true, Bool.false_eq_true, if_false, if_pos hmem]
        exact ⟨hn, hc⟩
      · simp only [hsp, Bool.not_true, Bool.false_eq_true, if_false, if_neg hmem]
        constructor
        · rw [show h.occupants ++ [aid] = h.occupants ++ aid :: [] from rfl,
              List.nodup_middle]
          simpa using ⟨hmem, hn⟩
        · have hlt : (h.occupants.length : Int) < h.capacity := by
            have := of_decide_eq_true hsp
            exact this
          simp only [List.length_append, List.length_singleton]
          push_cast
          omega
    · simp only [Bool.not_eq_true] at hsp
      simp only [hsp, Bool.not_false, if_true]
      exact ⟨hn, hc⟩
  | remove aid =>
    simp only [Habitat.applyOp, Habitat.remove]
    refine ⟨hn.erase aid, ?_⟩
    have := (List.erase_sublist aid h.occupants).length_le
    omega
  | upgrade cd ld =>
    simp only [Habitat.applyOp, Habitat.upgrade]
    split
    · exact ⟨hn, hc⟩
    · split
      · exact ⟨hn, hc⟩
      · split
        · exact ⟨hn, hc⟩
        · next h3 => exact ⟨hn, by dsimp only; omega⟩

theorem Habitat.applyOps_inv (ops : List HabOp) :
    ∀ h : Habitat, h.occupants.Nodup → (h.occupants.length : Int) ≤ h.capacity →
      (h.applyOps ops).occupants.Nodup ∧
        ((h.applyOps ops).occupants.length : Int) ≤ (h.applyOps ops).capacity := by
  induction ops with
  | nil => intro h hn hc; exact ⟨hn, hc⟩
  | cons op ops ih =>
    intro h hn hc
    obtain ⟨hn', hc'⟩ := Habitat.applyOp_inv h op hn hc
    exact ih (h.applyOp op) hn' hc'

/-- C6: starting from any enclosure satisfying the constructor invariant
(duplicate-free occupants within capacity), any finite sequence of
`add`/`remove`/`upgrade` calls keeps the occupant ids pairwise distinct and
the occupant count within capacity; and an `upgrade` whose resulting level
would drop below 1, or resulting capacity below 0 or below the current
occupant count, is rejected with the enclosure unchanged. -/
theorem C6_enclosure_invariants (h : Habitat)
    (hn : h.occupants.Nodup) (hc : (h.occupants.length : Int) ≤ h.capacity) :
    (∀ ops : List HabOp,
      (h.applyOps ops).occupants.Nodup ∧
        ((h.applyOps ops).occupants.length : Int) ≤ (h.applyOps ops).capacity) ∧
    (∀ cd ld : Int,
      (h.level + ld < 1 ∨ h.capacity + cd < 0 ∨
        h.capacity + cd < (h.occupants.length : Int)) →
      Habitat.upgrade h cd ld = (h, false)) := by
  constructor
  · intro ops
    exact Habitat.applyOps_inv ops h hn hc
  · intro cd ld hbad
    unfold Habitat.upgrade
    by_cases h1 : h.level + ld < 1
    · rw [if_pos h1]
    · rw [if_neg h1]
      by_cases h2 : h.capacity + cd < 0
      · rw [if_pos h2]
      · rw [if_neg h2, if_pos (by omega)]

/-- A concrete call sequence for the C6 witness. -/
def opsC6 : List HabOp := [.add "d3", .upgrade 1 1, .remove "d1", .add "d3"]

/-- C6 witness: `C6_enclosure_invariants` on the concrete habitats `hH1`
(for the operation sequence `opsC6`) and `hH2` (for a rejected downgrade
that would leave capacity below the occupant count). -/
theorem C6_enclosure_invariants_witness :
    ((hH1.applyOps opsC6).occupants.Nodup ∧
      ((hH1.applyOps opsC6).occupants.length : Int) ≤ (hH1.applyOps opsC6).capacity) ∧
    Habitat.upgrade hH2 (-1) 0 = (hH2, false) :=
  ⟨(C6_enclosure_invariants hH1 (by decide) (by decide)).1 opsC6,
   (C6_enclosure_invariants hH2 (by decide) (by decide)).2 (-1) 0 (by decide)⟩

/-! ## C8 -/

/-- C8: for a fixed job, `remaining` is monotonically non-increasing in
`now` and never negative, and `is_done(now)` holds exactly when
`remaining(now) = 0` and the status is not already "done". -/
theorem C8_remaining_monotone_floor (j : BreedingJob) :
    (∀ now1 now2 : ℚ, now1 ≤ now2 →
      BreedingJob.remaining j now2 ≤ BreedingJob.remaining j now1) ∧
    (∀ now : ℚ, 0 ≤ BreedingJob.remaining j now) ∧
    (∀ now : ℚ, BreedingJob.is_done j now = true ↔
      (BreedingJob.remaining j now = 0 ∧ j.status ≠ "done")) := by
  have hnn : ∀ now : ℚ, 0 ≤ BreedingJob.remaining j now := by
    intro now
    unfold BreedingJob.remaining
    dsimp only
    split
    · exact le_refl 0
    · next hraw => exact Int.floor_nonneg.mpr (le_of_lt (not_le.mp hraw))
  refine ⟨?_, hnn, ?_⟩
  · intro n1 n2 h12
    have hraw : (j.duration_s : ℚ) - (n2 - j.start_ts) ≤
        (j.duration_s : ℚ) - (n1 - j.start_ts) := by linarith
    have h0 := hnn n1
    unfold BreedingJob.remaining
    unfold BreedingJob.remaining at h0
    dsimp only
    dsimp only at h0
    by_cases h2 : (j.duration_s : ℚ) - (n2 - j.start_ts) ≤ 0
    · rw [if_pos h2]
      exact h0
    · rw [if_neg h2, if_neg (by linarith [not_le.mp h2])]
      exact Int.floor_mono hraw
  · intro now
    simp only [BreedingJob.is_done, Bool.and_eq_true, Bool.not_eq_true',
      beq_iff_eq, beq_eq_false_iff_ne, ne_eq]
    exact and_comm

/-- A concrete job for the C8 witness. -/
def jobC8 : BreedingJob :=
  { id := "b8", parent_m_id := "d1", parent_f_id := "d2", start_ts := 10,
    duration_s := 30, status := "incubating", result := none }

/-- C8 witness: `C8_remaining_monotone_floor` on `jobC8` at times 0 and 1. -/
theorem C8_remaining_monotone_floor_witness :
    BreedingJob.remaining jobC8 1 ≤ BreedingJob.remaining jobC8 0 ∧
    0 ≤ BreedingJob.remaining jobC8 0 ∧
    (BreedingJob.is_done jobC8 0 = true ↔
      (BreedingJob.remaining jobC8 0 = 0 ∧ jobC8.status ≠ "done")) :=
  ⟨(C8_remaining_monotone_floor jobC8).1 0 1 (by norm_num),
   (C8_remaining_monotone_floor jobC8).2.1 0,
   (C8_remaining_monotone_floor jobC8).2.2 0⟩

/-! ## C7 -/

/-- C7: for valid two-allele parent genotypes and any mutation chance in
[0,1], `combine_genes` succeeds for every outcome of the random draws, the
child genotype has exactly two characters over {A, a, B}, and the phenotype
is "Blue" exactly when the genotype contains 'B', else "Brown" exactly when
it contains 'A', else "Albino". -/
theorem C7_combine_genes_total (m f : List Char) (p : ℚ) (r : GeneDraw)
    (hm : validGeneString m = true) (hf : validGeneString f = true)
    (hp0 : 0 ≤ p) (hp1 : p ≤ 1) :
    ∃ g ph, combine_genes m f p r = .ok (g, ph) ∧ g.length = 2 ∧
      (∀ c ∈ g, c ∈ ALLOWED_ALLELES) ∧
      ph = (if 'B' ∈ g then "Blue" else if 'A' ∈ g then "Brown" else "Albino") := by
  have hm' : m.length = 2 ∧ ∀ c ∈ m, c ∈ ALLOWED_ALLELES := by
    simpa [validGeneString, Bool.and_eq_true, List.all_eq_true] using hm
  have hf' : f.length = 2 ∧ ∀ c ∈ f, c ∈ ALLOWED_ALLELES := by
    simpa [validGeneString, Bool.and_eq_true, List.all_eq_true] using hf
  obtain ⟨m0, m1, rfl⟩ := List.length_eq_two.mp hm'.1
  obtain ⟨f0, f1, rfl⟩ := List.length_eq_two.mp hf'.1
  have ham : ∀ i : Fin 2, [m0, m1].getD i.val 'A' ∈ ALLOWED_ALLELES := by
    intro i
    match i with
    | ⟨0, _⟩ => exact hm'.2 m0 (by simp)
    | ⟨1, _⟩ => exact hm'.2 m1 (by simp)
  have haf : ∀ i : Fin 2, [f0, f1].getD i.val 'A' ∈ ALLOWED_ALLELES := by
    intro i
    match i with
    | ⟨0, _⟩ => exact hf'.2 f0 (by simp)
    | ⟨1, _⟩ => exact hf'.2 f1 (by simp)
  unfold combine_genes
  rw [if_neg (by simp [hm]), if_neg (by simp [hf]),
      if_neg (not_not_intro ⟨hp0, hp1⟩)]
  refine ⟨_, _, rfl, ?_, ?_, rfl⟩
  · by_cases hmut : r.mutateRoll <;> simp [hmut, List.length_set]
  · intro c hc
    have hbase : ∀ x ∈ [[m0, m1].getD r.alleleM.val 'A',
        [f0, f1].getD r.alleleF.val 'A'], x ∈ ALLOWED_ALLELES := by
      intro x hx
      rcases List.mem_cons.mp hx with rfl | hx'
      · exact ham r.alleleM
      · rcases List.mem_cons.mp hx' with rfl | hx''
        · exact haf r.alleleF
        · cases hx''
    by_cases hmut : r.mutateRoll
    · rw [if_pos hmut] at hc
      rcases List.mem_or_eq_of_mem_set hc with hc' | rfl
      · exact hbase c hc'
      · simp [ALLOWED_ALLELES]
    · rw [if_neg hmut] at hc
      exact hbase c hc

/-- C7 witness: `C7_combine_genes_total` on parents "Aa" and "aa" with
mutation chance 5/100 and a draw that picks allele 1 from each parent and
mutates position 0. -/
theorem C7_combine_genes_total_witness :
    ∃ g ph, combine_genes ['A', 'a'] ['a', 'a'] (5/100)
        { alleleM := 1, alleleF := 0, mutateRoll := true, mutIdx := 0 } =
        .ok (g, ph) ∧ g.length = 2 ∧
      (∀ c ∈ g, c ∈ ALLOWED_ALLELES) ∧
      ph = (if 'B' ∈ g then "Blue" else if 'A' ∈ g then "Brown" else "Albino") :=
  C7_combine_genes_total ['A', 'a'] ['a', 'a'] (5/100)
    { alleleM := 1, alleleF := 0, mutateRoll := true, mutIdx := 0 }
    (by decide) (by decide) (by norm_num) (by norm_num)

/-! ## C9 -/

/-- The invariant `Armadillo.__post_init__` establishes: legal sex,
non-negative age, clamped meters, and life-stage flags derived from
`age_days`. Every constructed (hence every "valid") Armadillo satisfies
it. -/
def Armadillo.valid (a : Armadillo) : Prop :=
  (a.sex = "M" ∨ a.sex = "F") ∧ 0 ≤ a.age_days ∧
  0 ≤ a.hunger ∧ a.hunger ≤ 100 ∧ 0 ≤ a.happiness ∧ a.happiness ≤ 100 ∧
  a.is_adult = decide (14 ≤ a.age_days) ∧ a.is_baby = !a.is_adult

instance (a : Armadillo) : Decidable a.valid := by
  unfold Armadillo.valid
  infer_instance

/-- C9: serializing any valid Creature and deserializing the result yields
the same Creature in every attribute (the life-stage flags being recomputed
from `age_days`); and deserializing a record missing any one of the eight
required keys fails with the validation error. -/
theorem C9_roundtrip_and_missing_keys :
    (∀ a : Armadillo, a.valid → Armadillo.from_dict a.to_dict = .ok a) ∧
    (∀ d : ArmadilloRecord,
      (d.id = none ∨ d.name = none ∨ d.sex = none ∨ d.age_days = none ∨
        d.hunger = none ∨ d.happiness = none ∨ d.genes = none ∨ d.color = none) →
      Armadillo.from_dict d = .error "Missing fields") := by
  constructor
  · intro a hv
    cases a with
    | mk id name sex age_days hunger happiness genes color is_baby is_adult =>
      obtain ⟨hsex, hage, hh0, hh1, hp0, hp1, hadult, hbaby⟩ := hv
      dsimp only at hsex hage hh0 hh1 hp0 hp1 hadult hbaby
      unfold Armadillo.to_dict Armadillo.from_dict
      dsimp only
      unfold Armadillo.make
      rw [if_neg (by tauto), if_neg (by omega)]
      rw [show clamp hunger 0 100 = hunger from by unfold clamp; omega,
          show clamp happiness 0 100 = happiness from by unfold clamp; omega]
      subst hadult
      subst hbaby
      rfl
  · intro d hmiss
    unfold Armadillo.from_dict
    split
    · next i n sx ad hu ha g c hid hname hsex hage hhu hha hg hc =>
      rcases hmiss with h | h | h | h | h | h | h | h <;> simp_all
    · rfl

/-- C9 witness: the round trip on the starter armadillo `aD1`, and the
rejection of a record that only carries an id. -/
theorem C9_roundtrip_witness :
    Armadillo.from_dict aD1.to_dict = .ok aD1 ∧
    Armadillo.from_dict { id := some "x" } = .error "Missing fields" :=
  ⟨C9_roundtrip_and_missing_keys.1 aD1 (by decide),
   C9_roundtrip_and_missing_keys.2 { id := some "x" } (Or.inr (Or.inl rfl))⟩

/-! ## C10 -/

/-- C10: a tick that processes a due queued job whose male or female parent
id resolves to no Creature removes the job from the queue without marking it
done, without attaching a result, and without producing a newborn — the
state is unchanged except for the recorded tick time and the emptied queue,
and the dropped job value is returned exactly as it was. -/
theorem C10_tick_drops_orphan_job (s : GameState) (j : BreedingJob) (now : ℚ)
    (oracle : Nat → HatchDraw)
    (hq : s.breeding_queue = [j]) (hst : j.start_ts ≠ 0)
    (hdone : BreedingJob.is_done j now = true)
    (horphan : GameState.get_by_id s (some j.parent_m_id) = none ∨
      GameState.get_by_id s (some j.parent_f_id) = none) :
    GameState.breeding_tick s now oracle =
      .ok ({ s with meta := .float now, breeding_queue := [] }, [], [j]) := by
  have loop : ∀ (t : GameState),
      GameState.get_by_id t (some j.parent_m_id) = none ∨
        GameState.get_by_id t (some j.parent_f_id) = none →
      tickLoop now oracle [j] t [] [] [] 0 =
        .ok ({ t with breeding_queue := [] }, [], [j]) := by
    intro t horph
    simp only [tickLoop, if_neg hst, hdone, if_true]
    cases hdad : GameState.get_by_id t (some j.parent_m_id) with
    | none =>
      cases hmom : GameState.get_by_id t (some j.parent_f_id) <;>
        simp [tickLoop]
    | some dad =>
      cases hmom : GameState.get_by_id t (some j.parent_f_id) with
      | none => simp [tickLoop]
      | some mom =>
        rcases horph with h | h
        · rw [hdad] at h; cases h
        · rw [hmom] at h; cases h
  have hq' : ({ s with meta := MetaNowTs.float now } : GameState).breeding_queue
      = [j] := hq
  unfold GameState.breeding_tick
  dsimp only
  rw [hq']
  exact loop { s with meta := MetaNowTs.float now } horphan

/-- A queued job whose female parent id "gone" matches no armadillo. -/
def jobC10 : BreedingJob :=
  { id := "b9", parent_m_id := "d1", parent_f_id := "gone", start_ts := 10,
    duration_s := 30, status := "incubating", result := none }

/-- `sBase` with the orphaned job queued. -/
def sC10 : GameState := { sBase with breeding_queue := [jobC10] }

/-- C10 witness: ticking `sC10` at time 41 (the job is due: 30 seconds from
start 10) silently drops `jobC10`, produces no newborn, and leaves the rest
of the state unchanged. -/
theorem C10_tick_drops_orphan_job_witness :
    GameState.breeding_tick sC10 41 oracleK =
      .ok ({ sC10 with meta := .float 41, breeding_queue := [] }, [], [jobC10]) := by
  refine C10_tick_drops_orphan_job sC10 jobC10 41 oracleK rfl ?_ ?_ (Or.inr rfl)
  · show (10 : ℚ) ≠ 0
    norm_num
  · have hrem : BreedingJob.remaining jobC10 41 = 0 := by
      unfold BreedingJob.remaining
      dsimp only
      rw [if_pos (by norm_num [jobC10])]
    unfold BreedingJob.is_done
    rw [hrem]
    decide

/-! ## C1 -/

/-- C1: the claim says a `move_selected_to_habitat` call whose target is at
capacity returns failure AND leaves every occupant list unchanged. The code
removes the selected armadillo from its current habitat before checking the
target's capacity: on `sBase` (selected "d1" living in "h1", target "h2"
full) the call returns `false` yet "h1" has lost "d1", so the state-
preservation half of the claim is violated by the code. -/
theorem C1_move_to_full_evicts_selected :
    (GameState.move_selected_to_habitat sBase "h2").2 = false ∧
    sBase.habitats.map Habitat.occupants = [["d1"], ["d2"]] ∧
    (GameState.move_selected_to_habitat sBase "h2").1.habitats.map
      Habitat.occupants = [[], ["d2"]] := by
  refine ⟨rfl, rfl, rfl⟩

/-! ## C2 -/

/-- A save document whose first armadillo record lacks every key but `id`:
`Armadillo.from_dict` rejects it during `GameState.from_dict`. -/
def docC2 : GameDoc := { coins := 7, armadillos := [{ id := some "x" }] }

/-- C2: the claim says every failing load leaves the in-memory state exactly
as it was. `GameState.from_dict` assigns `coins` and `inventory` before
deserializing the armadillo list, so a record that fails validation makes
`Persistence.load` report failure with `coins` already overwritten: loading
`docC2` into `sBase` (coins 100) returns failure but leaves coins = 7. -/
theorem C2_failed_load_mutates_state :
    (Persistence.load sBase (.parsed docC2)).2 = false ∧
    sBase.coins = 100 ∧
    (Persistence.load sBase (.parsed docC2)).1.coins = 7 ∧
    (Persistence.load sBase (.parsed docC2)).1.inventory = [] := by
  refine ⟨rfl, rfl, rfl, rfl⟩

/-! ## C3 -/

/-- A habitat record with two distinct valid occupants but capacity one. -/
def hRecOver : HabitatRecord :=
  { id := some "h9", name := some "Cramped", level := some 1,
    capacity := some 1, occupants := ["d1", "d2"] }

/-- A save document containing `hRecOver` together with the two armadillos
its occupants refer to. -/
def docC3 : GameDoc :=
  { coins := 10, armadillos := [aD1.to_dict, aD2.to_dict], habitats := [hRecOver] }

/-- C3 counterexample: the claim says loading always succeeds and repairs an
over-full enclosure by truncation. In the code `Habitat.__post_init__`
raises "occupants exceed capacity" before the truncation step of
`GameState.from_dict` is ever reached, so loading `docC3` fails. -/
theorem C3_overfull_doc_rejected :
    Habitat.from_dict hRecOver = .error "occupants exceed capacity" ∧
    (GameState.from_dict sBase docC3).2 = false := by
  refine ⟨rfl, rfl⟩

/-- C3 (amended): when `GameState.from_dict` succeeds, every loaded
enclosure's occupant list is duplicate-free, within capacity, and contains
only ids of loaded Creatures, and a selected id is an id of a loaded
Creature; but a document whose enclosure lists more distinct occupants than
its capacity is rejected with an error rather than repaired by truncation. -/
theorem C3_load_normalization :
    (∀ (s s' : GameState) (d : GameDoc), GameState.from_dict s d = (s', true) →
      (∀ hab ∈ s'.habitats, hab.occupants.Nodup ∧
        (hab.occupants.length : Int) ≤ hab.capacity ∧
        ∀ aid ∈ hab.occupants, aid ∈ s'.armadillos.map Armadillo.id) ∧
      (∀ i, s'.selected_id = some i → i ∈ s'.armadillos.map Armadillo.id)) ∧
    (∀ (r : HabitatRecord) (c : Int), r.capacity = some c →
      c < ((dedupKeepFirst r.occupants).length : Int) →
      ∃ e, Habitat.from_dict r = .error e) := by
  constructor
  · intro s s' d h
    cases ha : mapExcept Armadillo.from_dict d.armadillos with
    | error e => simp only [GameState.from_dict, ha] at h; simp at h
    | ok as =>
      cases hh : mapExcept Habitat.from_dict d.habitats with
      | error e => simp only [GameState.from_dict, ha, hh] at h; simp at h
      | ok hs =>
        cases hj : mapExcept BreedingJob.from_dict d.breeding_queue with
        | error e => simp only [GameState.from_dict, ha, hh, hj] at h; simp at h
        | ok js =>
          simp only [GameState.from_dict, ha, hh, hj, Prod.mk.injEq] at h
          obtain ⟨hs', -⟩ := h
          subst hs'
          constructor
          · intro hab hmem
            simp only [List.mem_map] at hmem
            obtain ⟨h0, h0mem, rfl⟩ := hmem
            obtain ⟨r0, -, hr0⟩ :=
              mapExcept_ok_mem hh h0 (by simpa using h0mem)
            obtain ⟨-, hcap0, -, -⟩ := Habitat.from_dict_ok_fields hr0
            dsimp only
            refine ⟨?_, ?_, ?_⟩
            · exact (List.take_sublist _ _).nodup (dedupKeepFirst_nodup _)
            · have hlen := List.length_take_le (max 0 h0.capacity).toNat
                (dedupKeepFirst (h0.occupants.filter
                  (fun aid => (as.map (fun a => a.id)).contains aid)))
              omega
            · intro aid haid
              have h1 : aid ∈ dedupKeepFirst (h0.occupants.filter
                  (fun aid => (as.map (fun a => a.id)).contains aid)) :=
                (List.take_sublist _ _).subset haid
              have h2 := dedupKeepFirst_subset _ _ h1
              have h3 := (List.mem_filter.mp h2).2
              simpa using h3
          · intro i hi
            dsimp only at hi
            cases hsel : d.selected_id with
            | none => rw [hsel] at hi; cases hi
            | some i0 =>
              rw [hsel] at hi
              dsimp only at hi
              by_cases hany : as.any (fun a => a.id == i0)
              · rw [if_pos hany] at hi
                cases hi
                simpa using List.any_eq_true.mp hany
              · rw [if_neg hany] at hi
                cases hi
  · intro r c hc hover
    unfold Habitat.from_dict
    split
    · next i n lv cap hid hname hlv hcap =>
      rw [hc] at hcap
      cases hcap
      unfold Habitat.make
      split
      · exact ⟨_, rfl⟩
      · split
        · exact ⟨_, rfl⟩
        · split
          · exact ⟨_, rfl⟩
          · simp only
            rw [if_pos (by omega)]
            exact ⟨_, rfl⟩
    · exact ⟨_, rfl⟩

/-- A save document that loads successfully: one armadillo, one habitat. -/
def docOK : GameDoc :=
  { coins := 1, armadillos := [aD1.to_dict], habitats := [hH1.to_dict],
    selected_id := some "d1" }

/-- The state `docOK` loads to (over `sBase`). -/
def sC3res : GameState :=
  { coins := 1, inventory := [], armadillos := [aD1], habitats := [hH1],
    breeding_queue := [], dex_colors := [], selected_id := some "d1",
    meta := .absent }

/-- C3 witness: `C3_load_normalization` applied to the successful load of
`docOK` and to the over-full record `hRecOver`. -/
theorem C3_load_normalization_witness :
    ((∀ hab ∈ sC3res.habitats, hab.occupants.Nodup ∧
        (hab.occupants.length : Int) ≤ hab.capacity ∧
        ∀ aid ∈ hab.occupants, aid ∈ sC3res.armadillos.map Armadillo.id) ∧
      (∀ i, sC3res.selected_id = some i →
        i ∈ sC3res.armadillos.map Armadillo.id)) ∧
    (∃ e, Habitat.from_dict hRecOver = .error e) :=
  ⟨C3_load_normalization.1 sBase sC3res docOK rfl,
   C3_load_normalization.2 hRecOver 1 rfl (by decide)⟩

/-! ## C5 -/

/-- `sBase` after some earlier tick stored `now_ts = 5.0` in `meta`. -/
def sMeta5 : GameState := { sBase with meta := .float 5 }

/-- The job `start_breeding` creates on `sMeta5`: its start timestamp is the
stored `now_ts`, not zero. -/
def jobC5 : BreedingJob :=
  { id := "b1", parent_m_id := "d1", parent_f_id := "d2", start_ts := 5,
    duration_s := 30, status := "incubating", result := none }

/-- C5 counterexample: the claim says every successful `start_breeding`
appends a job whose start timestamp is zero at creation time. On a state
whose `meta["now_ts"]` is the float 5.0 (as any earlier `breeding_tick(5.0)`
leaves it), the created job has `start_ts = 5 ≠ 0`. -/
theorem C5_created_start_ts_nonzero :
    GameState.start_breeding sMeta5 "d1" "d2" 30 =
      ({ sMeta5 with breeding_queue := [jobC5] }, some jobC5) ∧
    jobC5.start_ts ≠ 0 := by
  refine ⟨rfl, ?_⟩
  show (5 : ℚ) ≠ 0
  norm_num

/-- C5 (amended): every successful `start_breeding` call appends exactly one
new incubating job whose start timestamp is the stored `meta["now_ts"]` when
that value is a float and zero otherwise; a job whose start timestamp is zero
has it set to the tick time by the first `breeding_tick` that processes it. -/
theorem C5_start_ts_semantics :
    (∀ (s s' : GameState) (did mid : String) (dur : Int) (j : BreedingJob),
      GameState.start_breeding s did mid dur = (s', some j) →
      s'.breeding_queue = s.breeding_queue ++ [j] ∧ j.status = "incubating" ∧
        j.result = none ∧
        j.start_ts = (match s.meta with | .float q => q | _ => 0)) ∧
    (∀ (s : GameState) (j : BreedingJob) (now : ℚ) (oracle : Nat → HatchDraw),
      s.breeding_queue = [j] → j.start_ts = 0 → 1 ≤ j.duration_s →
      GameState.breeding_tick s now oracle =
        .ok ({ s with meta := .float now,
                      breeding_queue := [{ j with start_ts := now }] }, [], [])) := by
  constructor
  · intro s s' did mid dur j h
    unfold GameState.start_breeding at h
    split at h
    · simp at h
    · split at h
      · split at h
        · simp at h
        · split at h
          · simp at h
          · simp only [Prod.mk.injEq, Option.some.injEq] at h
            obtain ⟨h1, h2⟩ := h
            subst h1; subst h2
            exact ⟨rfl, rfl, rfl, rfl⟩
      · simp at h
  · intro s j now oracle hq h0 hdur
    unfold GameState.breeding_tick
    dsimp only
    rw [hq]
    simp only [tickLoop, if_pos h0, is_done_fresh_start j now hdur]
    rfl

/-- A queued job with zero start timestamp, for the C5 witness. -/
def jobC5z : BreedingJob :=
  { id := "b2", parent_m_id := "d1", parent_f_id := "d2", start_ts := 0,
    duration_s := 30, status := "incubating", result := none }

/-- C5 witness: `C5_start_ts_semantics` applied to the concrete call of
`C5_created_start_ts_nonzero` and to a first tick over `jobC5z`. -/
theorem C5_start_ts_semantics_witness :
    (sMeta5.breeding_queue ++ [jobC5] =
        ({ sMeta5 with breeding_queue := [jobC5] } : GameState).breeding_queue ∧
      jobC5.status = "incubating" ∧ jobC5.result = none ∧
      jobC5.start_ts = (match sMeta5.meta with | .float q => q | _ => 0)) ∧
    GameState.breeding_tick { sBase with breeding_queue := [jobC5z] } 41 oracleK =
      .ok ({ { sBase with breeding_queue := [jobC5z] } with
              meta := .float 41,
              breeding_queue := [{ jobC5z with start_ts := 41 }] }, [], []) := by
  constructor
  · obtain ⟨h1, h2, h3, h4⟩ :=
      C5_start_ts_semantics.1 sMeta5 { sMeta5 with breeding_queue := [jobC5] }
        "d1" "d2" 30 jobC5 rfl
    exact ⟨h1.symm, h2, h3, h4⟩
  · exact C5_start_ts_semantics.2 { sBase with breeding_queue := [jobC5z] }
      jobC5z 41 oracleK rfl rfl (by decide)

/-! ## C4 -/

/-- C4 counterexample: the claim says `buy` with a negative cost returns
false; the code raises `ValueError` instead (leaving the state unchanged). -/
theorem C4_negative_cost_raises :
    GameState.buy sBase "food" (-1) = (sBase, .raised "cost must be >= 0.") ∧
    (GameState.buy sBase "food" (-1)).2 ≠ .ok false := by
  refine ⟨rfl, by decide⟩

/-- C4 (amended): `buy(item, cost)` raises `ValueError` on a negative cost
(state unchanged), returns false without mutation when coins < cost, and
otherwise returns true after deducting exactly `cost` from coins and
incrementing the inventory count of `item` by one. -/
theorem C4_buy_spec (s : GameState) (item : String) (cost : Int) :
    (cost < 0 → GameState.buy s item cost = (s, .raised "cost must be >= 0.")) ∧
    (0 ≤ cost → s.coins < cost → GameState.buy s item cost = (s, .ok false)) ∧
    (0 ≤ cost → cost ≤ s.coins →
      GameState.buy s item cost =
        ({ s with coins := s.coins - cost,
                  inventory := dictSetI s.inventory item (dictGetI s.inventory item + 1) },
         .ok true)) := by
  refine ⟨fun hneg => ?_, fun hge hlt => ?_, fun hge hle => ?_⟩
  · simp [GameState.buy, hneg]
  · rw [GameState.buy, if_neg (by omega), if_pos hlt]
  · rw [GameState.buy, if_neg (by omega), if_neg (by omega)]

/-- C4 witness: the three branches of `C4_buy_spec` exercised on `sBase`
(coins 100): cost −1 raises, cost 101 is rejected, cost 5 buys. -/
theorem C4_buy_spec_witness :
    GameState.buy sBase "food" (-1) = (sBase, .raised "cost must be >= 0.") ∧
    GameState.buy sBase "food" 101 = (sBase, .ok false) ∧
    GameState.buy sBase "food" 5 =
      ({ sBase with coins := sBase.coins - 5,
                    inventory := dictSetI sBase.inventory "food"
                      (dictGetI sBase.inventory "food" + 1) }, .ok true) := by
  refine ⟨(C4_buy_spec sBase "food" (-1)).1 (by decide),
          (C4_buy_spec sBase "food" 101).2.1 (by decide) (by decide),
          (C4_buy_spec sBase "food" 5).2.2 (by decide) (by decide)⟩
